import Mathlib

/-!
Verification of the log-to-verdict evaluation pipeline of the wikiagent
repository (`week3/wikiagent/evaluator.py`).

The evaluator reads JSON run logs, extracts normalized fields, applies three
deterministic rule-based checks, and upserts one `logs` row plus its `checks`
rows into a relational store keyed by filename.

Modelling conventions:
* Python JSON-like values are the inductive type `Val`; dictionaries are
  association lists (first key wins, as CPython dicts have unique keys).
* Fallible Python code (AttributeError / TypeError on dynamically typed
  values) returns `Option`; `none` models a raised exception.
* Python floats are modelled as exact rationals (`ℚ`); `str.lower()` is the
  ASCII case map, which agrees with CPython on every character the token
  class `[A-Za-z0-9_]+` can match.
* The database is a pure state (`DB`); autocommit semantics are modelled by
  returning the partially updated state together with a success flag.
* Surrogate ids of the `checks` table are omitted: the source never reads
  them, `checks` rows are identified only by their payload.
-/

set_option autoImplicit false

namespace WikiEval

/-- A Python/JSON value as it appears in a parsed run log. -/
inductive Val where
  | vstr (s : String)
  | vnum (n : Int)
  | vbool (b : Bool)
  | vnull
  | vlist (xs : List Val)
  | vdict (fields : List (String × Val))

/-- Python truthiness of a value (`bool(v)`). -/
def truthy : Val → Bool
  | Val.vstr s => !s.isEmpty
  | Val.vnum n => n != 0
  | Val.vbool b => b
  | Val.vnull => false
  | Val.vlist xs => !xs.isEmpty
  | Val.vdict fs => !fs.isEmpty

/-- Python `v or d`: the left operand when truthy, otherwise the right. -/
def orVal (v d : Val) : Val := if truthy v then v else d

/-- Python `v == "s"` for a string literal: true exactly for the equal string. -/
def isStrEq (v : Val) (s : String) : Bool :=
  match v with
  | Val.vstr t => t == s
  | _ => false

/-- First value bound to `key` in an association list (CPython dict lookup). -/
def lookupV : List (String × Val) → String → Option Val
  | [], _ => none
  | (k, v) :: rest, key => if k = key then some v else lookupV rest key

/-- `dict.get(key, default)`. -/
def lookupD (fs : List (String × Val)) (key : String) (d : Val) : Val :=
  (lookupV fs key).getD d

/-- `v.get(key, default)`: raises (`none`) unless `v` is a dict. -/
def pyGetD (v : Val) (key : String) (d : Val) : Option Val :=
  match v with
  | Val.vdict fs => some (lookupD fs key d)
  | _ => none

/-- `len(v)`: defined for sized values, raises (`none`) otherwise. -/
def pyLen : Val → Option Nat
  | Val.vstr s => some s.length
  | Val.vlist xs => some xs.length
  | Val.vdict fs => some fs.length
  | _ => none

/-- `for x in v`: iteration order of a Python value; strings yield their
characters, dicts their keys; non-iterables raise (`none`). -/
def pyIterVals : Val → Option (List Val)
  | Val.vstr s => some (s.data.map (fun c => Val.vstr (String.mk [c])))
  | Val.vlist xs => some xs
  | Val.vdict fs => some (fs.map (fun kv => Val.vstr kv.1))
  | _ => none

mutual

/-- Python `repr` of a value (string escaping inside containers abbreviated). -/
def pyRepr : Val → String
  | Val.vstr s => "\x27" ++ s ++ "\x27"
  | Val.vnum n => toString n
  | Val.vbool b => if b then "True" else "False"
  | Val.vnull => "None"
  | Val.vlist xs => "[" ++ pyReprItems xs ++ "]"
  | Val.vdict fs => "\x7b" ++ pyReprFields fs ++ "\x7d"

/-- Comma-separated reprs of list items. -/
def pyReprItems : List Val → String
  | [] => ""
  | [x] => pyRepr x
  | x :: y :: rest => pyRepr x ++ ", " ++ pyReprItems (y :: rest)

/-- Comma-separated reprs of dict entries. -/
def pyReprFields : List (String × Val) → String
  | [] => ""
  | [(k, v)] => "\x27" ++ k ++ "\x27: " ++ pyRepr v
  | (k, v) :: f :: rest => "\x27" ++ k ++ "\x27: " ++ pyRepr v ++ ", " ++ pyReprFields (f :: rest)

end

/-- Python `str(v)`: the string itself for strings, else its repr-style form. -/
def pyStr : Val → String
  | Val.vstr s => s
  | v => pyRepr v

mutual

/-- `json.dumps(v)` (string escaping abbreviated; only stored as an opaque blob). -/
def jsonDumps : Val → String
  | Val.vstr s => "\"" ++ s ++ "\""
  | Val.vnum n => toString n
  | Val.vbool b => if b then "true" else "false"
  | Val.vnull => "null"
  | Val.vlist xs => "[" ++ jsonItems xs ++ "]"
  | Val.vdict fs => "\x7b" ++ jsonFields fs ++ "\x7d"

/-- Comma-separated JSON forms of list items. -/
def jsonItems : List Val → String
  | [] => ""
  | [x] => jsonDumps x
  | x :: y :: rest => jsonDumps x ++ ", " ++ jsonItems (y :: rest)

/-- Comma-separated JSON forms of dict entries. -/
def jsonFields : List (String × Val) → String
  | [] => ""
  | [(k, v)] => "\"" ++ k ++ "\": " ++ jsonDumps v
  | (k, v) :: f :: rest => "\"" ++ k ++ "\": " ++ jsonDumps v ++ ", " ++ jsonFields (f :: rest)

end

/-- Characters matched by the regex class `[A-Za-z0-9_]` of `_tokenize`. -/
def isWordChar (c : Char) : Bool :=
  (decide ('a' ≤ c) && decide (c ≤ 'z')) ||
  (decide ('A' ≤ c) && decide (c ≤ 'Z')) ||
  (decide ('0' ≤ c) && decide (c ≤ '9')) ||
  decide (c = '_')

/-- ASCII case map: `str.lower()` restricted to ASCII letters; CPython's full
Unicode lowering agrees with it on every character `isWordChar` accepts. -/
def asciiLower (c : Char) : Char :=
  if 'A' ≤ c ∧ c ≤ 'Z' then Char.ofNat (c.toNat + 32) else c

/-- `re.findall(r"[A-Za-z0-9_]+", ...)`: maximal runs of word characters.
The accumulator holds the current (reversed) run. -/
def tokenizeChars : List Char → List Char → List (List Char)
  | [], acc => if acc.isEmpty then [] else [acc.reverse]
  | c :: rest, acc =>
    if isWordChar c then tokenizeChars rest (c :: acc)
    else if acc.isEmpty then tokenizeChars rest []
    else acc.reverse :: tokenizeChars rest []

/-- `_tokenize(text)`: `re.findall(r"[A-Za-z0-9_]+", text.lower())`. -/
def pyTokenize (s : String) : List String :=
  (tokenizeChars (s.data.map asciiLower) []).map (fun cs => String.mk cs)

/-- Is `p` a prefix of the second list? -/
def isPrefixL : List Char → List Char → Bool
  | [], _ => true
  | _ :: _, [] => false
  | a :: as, b :: bs => decide (a = b) && isPrefixL as bs

/-- Does the list contain `needle` as a contiguous sublist? -/
def containsSubL (needle : List Char) : List Char → Bool
  | [] => needle.isEmpty
  | c :: rest => isPrefixL needle (c :: rest) || containsSubL needle rest

/-- Python substring membership `needle in hay`. -/
def containsSubStr (hay needle : String) : Bool :=
  containsSubL needle.data hay.data

/-- Floor of a nonnegative rational scaled by 1000, rounded half-to-even:
models CPython `f"{x:.3f}"` rounding on the nonnegative scores produced
here (binary-float representation abstracted to the exact rational). -/
def round3 (q : ℚ) : Nat :=
  let s : ℚ := q * 1000
  let n : Int := s.num / (s.den : Int)
  let f : ℚ := s - (n : ℚ)
  (if f < 1/2 then n else if 1/2 < f then n + 1 else if n % 2 = 0 then n else n + 1).toNat

/-- `f"{q:.3f}"` for the nonnegative rationals appearing in check details. -/
def fmt3 (q : ℚ) : String :=
  let m := round3 q
  toString (m / 1000) ++ "." ++
    (if m % 1000 < 10 then "00" else if m % 1000 < 100 then "0" else "") ++
    toString (m % 1000)

/-- Python `repr`-style rendering of a boolean in an f-string. -/
def pyBool (b : Bool) : String := if b then "True" else "False"

/-- One row of the rule evaluator's output (dataclass `CheckResult`);
`passed = none` is the tri-state "not applicable". -/
structure CheckResult where
  log_id : Nat
  check_name : String
  passed : Option Bool
  score : Option ℚ
  details : String
  deriving DecidableEq

/- ### Log parsing helpers -/

/-- Inner loop of the user-prompt scan (lines 91-95 of the source): the first
part of one message whose `part_kind` is `"user-prompt"`, as the string form
of its `content` (default `""`); `some none` when the message has no such
part, outer `none` when a part is not a dict (`.get` raises). -/
def firstUserPromptInParts : List Val → Option (Option String)
  | [] => some none
  | p :: rest => do
    let pk ← pyGetD p "part_kind" Val.vnull
    if isStrEq pk "user-prompt" then
      let content ← pyGetD p "content" (Val.vstr "")
      pure (some (match content with | Val.vstr s => s | v => pyStr v))
    else
      firstUserPromptInParts rest

/-- Outer loop of the user-prompt scan (lines 89-97): the running variable
starts at `""`; a message's first user-prompt part overwrites it, and the
scan stops as soon as the variable is non-empty. -/
def scanUserPrompt : List Val → Option String
  | [] => some ""
  | m :: rest => do
    let partsRaw ← pyGetD m "parts" (Val.vlist [])
    let parts ← pyIterVals (orVal partsRaw (Val.vlist []))
    let found ← firstUserPromptInParts parts
    match found with
    | some s => if s = "" then scanUserPrompt rest else pure s
    | none => scanUserPrompt rest

/-- `extract_core_fields(entry)`: returns
`(user_prompt, answer, instructions, references)`; `none` models a raised
exception (non-dict entry, non-iterable `messages`, non-dict part). -/
def extract_core_fields (entry : Val) : Option (String × Val × Val × Val) := do
  let sp ← pyGetD entry "system_prompt" Val.vnull
  let instructions := orVal sp (Val.vstr "")
  let outRaw ← pyGetD entry "output" Val.vnull
  let out := orVal outRaw (Val.vdict [])
  let (answer, references) :=
    match out with
    | Val.vdict ofs =>
      (orVal (lookupD ofs "answer" Val.vnull) (Val.vstr ""),
       orVal (lookupD ofs "references" Val.vnull) (Val.vlist []))
    | v => (Val.vstr (pyStr v), Val.vlist [])
  let msgsRaw ← pyGetD entry "messages" (Val.vlist [])
  let msgs ← pyIterVals msgsRaw
  let user_prompt ← scanUserPrompt msgs
  pure (user_prompt, answer, instructions, references)

/-- Tool-call names of one message's parts (lines 106-110): every part with
`part_kind == "tool-call"` whose `tool_name` is truthy. -/
def toolCallsInParts : List Val → Option (List Val)
  | [] => some []
  | p :: rest => do
    let pk ← pyGetD p "part_kind" Val.vnull
    if isStrEq pk "tool-call" then
      let name ← pyGetD p "tool_name" Val.vnull
      let more ← toolCallsInParts rest
      pure (if truthy name then name :: more else more)
    else
      toolCallsInParts rest

/-- Tool-call names across a list of messages, in order. -/
def toolCallsInMsgs : List Val → Option (List Val)
  | [] => some []
  | m :: rest => do
    let partsRaw ← pyGetD m "parts" (Val.vlist [])
    let parts ← pyIterVals (orVal partsRaw (Val.vlist []))
    let names ← toolCallsInParts parts
    let more ← toolCallsInMsgs rest
    pure (names ++ more)

/-- `extract_tool_calls(entry)`: sequence of tool names in chronological order. -/
def extract_tool_calls (entry : Val) : Option (List Val) := do
  let msgsRaw ← pyGetD entry "messages" (Val.vlist [])
  let msgs ← pyIterVals msgsRaw
  toolCallsInMsgs msgs

/- ### Rule-based evaluation -/

/-- `bool(tool_calls) and tool_calls[0] == "search_wikipedia"` (line 125). -/
def searchFirst (tool_calls : List Val) : Bool :=
  match tool_calls with
  | [] => false
  | t :: _ => isStrEq t "search_wikipedia"

/-- `sum(1 for t in tool_calls if t == "get_page_raw")` (line 127). -/
def numGetPage (tool_calls : List Val) : Nat :=
  (tool_calls.filter (fun t => isStrEq t "get_page_raw")).length

/-- `all("wikipedia.org/wiki" in r for r in refs)` (line 129): short-circuits
at the first reference missing the substring; raises (`none`) when it meets a
non-string reference before that. -/
def allContainWiki : List Val → Option Bool
  | [] => some true
  | v :: rest =>
    match v with
    | Val.vstr s =>
      if containsSubStr s "wikipedia.org/wiki" then allContainWiki rest else some false
    | _ => none

/-- `_tokenize(answer)` needs a `str` receiver for `.lower()`; anything else
raises (`none`). -/
def asString : Val → Option String
  | Val.vstr s => some s
  | _ => none

/-- The `answer_relevant` check (lines 149-163): Jaccard similarity of the
case-folded token sets of prompt and answer. -/
def answer_relevant_check (log_id : Nat) (user_prompt answer : String) : CheckResult :=
  let p_tokens := (pyTokenize user_prompt).toFinset
  let a_tokens := (pyTokenize answer).toFinset
  let overlap := (p_tokens ∩ a_tokens).card
  let jaccard : ℚ := (overlap : ℚ) / ((max 1 (p_tokens ∪ a_tokens).card : ℕ) : ℚ)
  let cond := !user_prompt.isEmpty && !answer.isEmpty
  { log_id := log_id
    check_name := "answer_relevant"
    passed := if cond then some (decide (jaccard ≥ (8 : ℚ)/100)) else none
    score := if cond then some jaccard else none
    details := "token_overlap=" ++ toString overlap ++ ", jaccard=" ++ fmt3 jaccard }

/-- The `follow_instruction` check (lines 122-145): search tool first,
page-fetch count in `[2,5]`, reference count in `[1,5]`, every reference in
wiki format; no verdict when the answer is falsy. -/
def follow_instruction_check (log_id : Nat) (answerV : Val) (tool_calls : List Val)
    (nRefs : Nat) (refs_ok_format : Bool) : CheckResult :=
  let search_first := searchFirst tool_calls
  let num_get_page := numGetPage tool_calls
  let refs_ok_count := decide (1 ≤ nRefs) && decide (nRefs ≤ 5)
  let follow_all := search_first && (decide (2 ≤ num_get_page) && decide (num_get_page ≤ 5))
    && refs_ok_count && refs_ok_format
  { log_id := log_id
    check_name := "follow_instruction"
    passed := if truthy answerV then some follow_all else none
    score := none
    details := "search_first=" ++ pyBool search_first ++ ", num_get_page="
      ++ toString num_get_page ++ ", n_refs=" ++ toString nRefs
      ++ ", refs_ok_format=" ++ pyBool refs_ok_format }

/-- The `has_references` check (lines 165-176): non-empty reference list or a
wiki link inside the answer text; no verdict when the answer is falsy. -/
def has_references_check (log_id : Nat) (answerV : Val) (answer : String)
    (nRefs : Nat) : CheckResult :=
  let has_ref := decide (nRefs > 0) || containsSubStr answer "wikipedia.org/wiki"
  { log_id := log_id
    check_name := "has_references"
    passed := if truthy answerV then some has_ref else none
    score := none
    details := "n_refs=" ++ toString nRefs }

/-- `evaluate_entry(log_id, entry)` (lines 116-178): the three rule-based
checks, in their fixed order; `none` models a raised exception. -/
def evaluate_entry (log_id : Nat) (entry : Val) : Option (List CheckResult) := do
  let (user_prompt, answerV, _instructions, referencesV) ← extract_core_fields entry
  let tool_calls ← extract_tool_calls entry
  let nRefs ← pyLen referencesV
  let refItems ← pyIterVals referencesV
  let refs_ok_format ← allContainWiki refItems
  let check1 := follow_instruction_check log_id answerV tool_calls nRefs refs_ok_format
  let answer ← asString answerV
  let check2 := answer_relevant_check log_id user_prompt answer
  let check3 := has_references_check log_id answerV answer nRefs
  pure [check1, check2, check3]

/- ### Persistence layer -/

/-- One row of the `wikiagent_logs` table. `id` is the serial key,
`created_at` the `now()` timestamp captured at insertion. The `answer` and
`instructions` columns keep the extracted values. -/
structure LogRow where
  id : Nat
  filename : String
  created_at : Nat
  user_prompt : String
  answer : Val
  instructions : Val
  n_references : Nat
  raw_json : String

/-- The two-table relational store. `checks` rows are `CheckResult` payloads
(their surrogate id is never read by the source); `nextLogId` models the serial
sequence of `wikiagent_logs.id`. -/
structure DB where
  logs : List LogRow
  checks : List CheckResult
  nextLogId : Nat

/-- `Path(p).name`: the part after the last slash. -/
def pathNameAux : List Char → List Char → List Char
  | [], acc => acc.reverse
  | c :: rest, acc => if c = '/' then pathNameAux rest [] else pathNameAux rest (c :: acc)

/-- `Path(p).name`. -/
def pathName (p : String) : String := String.mk (pathNameAux p.data [])

/-- `upsert_log_and_checks(conn, path, entry)` (lines 187-219) under
autocommit: each statement takes effect immediately, so on an exception the
partially updated state is kept; the boolean reports completion without
exception. -/
def upsert_log_and_checks (db : DB) (path : String) (entry : Val) (now : Nat) : DB × Bool :=
  match extract_core_fields entry with
  | none => (db, false)
  | some (user_prompt, answer, instructions, references) =>
    match db.logs.find? (fun r => r.filename == pathName path) with
    | some row =>
      let db1 : DB := { db with checks := db.checks.filter (fun c => c.log_id != row.id) }
      match evaluate_entry row.id entry with
      | none => (db1, false)
      | some cs => ({ db1 with checks := db1.checks ++ cs }, true)
    | none =>
      match pyLen references with
      | none => (db, false)
      | some nRefs =>
        let log_id := db.nextLogId
        let newRow : LogRow :=
          { id := log_id, filename := pathName path, created_at := now
            user_prompt := user_prompt, answer := answer, instructions := instructions
            n_references := nRefs, raw_json := jsonDumps entry }
        let db1 : DB := { db with logs := db.logs ++ [newRow], nextLogId := log_id + 1 }
        match evaluate_entry log_id entry with
        | none => (db1, false)
        | some cs => ({ db1 with checks := db1.checks ++ cs }, true)

/- ### Pipeline driver -/

/-- `iter_log_files`: the matching files sorted lexicographically (the glob
match itself is abstracted: the argument is the list of `*.json` paths). -/
def iter_log_files (paths : List String) : List String :=
  List.insertionSort (fun a b => a ≤ b) paths

/-- The success line `print(f"  processed {path.name}")`. -/
def processedLine (p : String) : String := "  processed " ++ pathName p

/-- The failure line `print(f"  ERROR processing {path}: {e}")`. -/
def errorLine (p msg : String) : String := "  ERROR processing " ++ p ++ ": " ++ msg

/-- Exception text of a failed upsert (the concrete message is abstracted). -/
def upsertErrMsg : String := "upsert failed"

/-- The per-file loop of `main` (lines 237-244): parse, upsert, report; a
failing file is reported and the loop continues. The parse outcome of each
path is part of the input (`Except.error` models a `json.load` exception). -/
def processFiles (now : Nat) (db : DB) : List (String × Except String Val) → DB × List String
  | [] => (db, [])
  | (p, res) :: rest =>
    match res with
    | Except.error msg =>
      let next := processFiles now db rest
      (next.1, errorLine p msg :: next.2)
    | Except.ok entry =>
      let step := upsert_log_and_checks db p entry now
      let line := if step.2 then processedLine p else errorLine p upsertErrMsg
      let next := processFiles now step.1 rest
      (next.1, line :: next.2)

/-- `main()` (lines 222-247) with the environment made explicit: directory
existence, the `*.json` paths it holds, the parse outcome per path, the
database state, and the clock. Returns the final database and the printed
lines. Connection setup and `ensure_schema` are identity on this model. -/
def mainRun (dirExists : Bool) (dir : String) (paths : List String)
    (parse : String → Except String Val) (db : DB) (now : Nat) : DB × List String :=
  if !dirExists then (db, ["No log directory found at " ++ dir ++ "; nothing to do."])
  else
    let files := iter_log_files paths
    if files.isEmpty then (db, ["No JSON log files found in " ++ dir ++ "."])
    else
      let run := processFiles now db (files.map (fun p => (p, parse p)))
      (run.1, ("Evaluating " ++ toString files.length ++ " logs from " ++ dir ++ "...")
        :: (run.2 ++ ["Done."]))

/- ### Spec-side definitions (written from the specification's words, for
refinement statements) -/

/-- Spec §4.2: case-insensitive alphanumeric-or-underscore tokens of a text,
as a set (duplicates collapse). -/
def specTokens (s : String) : Finset String := (pyTokenize s).toFinset

/-- Spec §4.2: Jaccard similarity `|intersection| / max(1, |union|)` of the
token sets of prompt and answer. -/
def jaccardSpec (p a : String) : ℚ :=
  ((specTokens p ∩ specTokens a).card : ℚ) /
    ((max 1 (specTokens p ∪ specTokens a).card : ℕ) : ℚ)

/-- Spec §4.4: a per-file success report line. -/
def isProcessedLine (l : String) : Bool := isPrefixL "  processed ".data l.data

/-- Spec §4.4 / §7: a per-file error report line. -/
def isErrorLine (l : String) : Bool := isPrefixL "  ERROR processing ".data l.data

/-- Well-formedness the schema guarantees: serial ids are below the sequence
counter and every check references an existing log row (foreign key). -/
def WFdb (db : DB) : Prop :=
  (∀ r ∈ db.logs, r.id < db.nextLogId) ∧
  (∀ c ∈ db.checks, ∃ r ∈ db.logs, c.log_id = r.id)

/-- Messages whose parts (when present) are dicts without a `"content"`
key: the shape claim C8 quantifies over for the nested optional keys. -/
def NoContentMsgs (ms : List Val) : Prop :=
  ∀ m ∈ ms, ∃ mfs, m = Val.vdict mfs ∧
    ∀ pv, lookupV mfs "parts" = some pv →
      ∃ ps, pv = Val.vlist ps ∧
        ∀ p ∈ ps, ∃ pfs, p = Val.vdict pfs ∧ lookupV pfs "content" = none

/- ### Concrete inputs used by witnesses and counterexamples -/

/-- The empty database (fresh schema). -/
def emptyDB : DB := { logs := [], checks := [], nextLogId := 0 }

/-- A log entry whose `output` is the empty string. -/
def entryEmptyOut : Val := Val.vdict [("output", Val.vstr "")]

/-- Scenario A of spec §8: a complete successful run log. -/
def entryScenA : Val := Val.vdict [
  ("messages", Val.vlist [
    Val.vdict [("parts", Val.vlist [
      Val.vdict [("part_kind", Val.vstr "user-prompt"), ("content", Val.vstr "capybara habitat")],
      Val.vdict [("part_kind", Val.vstr "tool-call"), ("tool_name", Val.vstr "search_wikipedia")],
      Val.vdict [("part_kind", Val.vstr "tool-call"), ("tool_name", Val.vstr "get_page_raw")],
      Val.vdict [("part_kind", Val.vstr "tool-call"), ("tool_name", Val.vstr "get_page_raw")]])]]),
  ("output", Val.vdict [("answer", Val.vstr "Capybaras live near water."),
    ("references", Val.vlist [Val.vstr "https://en.wikipedia.org/wiki/Capybara"])])]

/-- The `logs` row created by ingesting scenario A first (id 0, clock 7). -/
def rowScenA : LogRow :=
  { id := 0, filename := "a.json", created_at := 7,
    user_prompt := "capybara habitat",
    answer := Val.vstr "Capybaras live near water.",
    instructions := Val.vstr "",
    n_references := 1, raw_json := jsonDumps entryScenA }

/-- A log whose first user-prompt part has empty content while a later
message carries a non-empty user prompt. -/
def entryTwoPrompts : Val := Val.vdict [("messages", Val.vlist [
  Val.vdict [("parts", Val.vlist [
    Val.vdict [("part_kind", Val.vstr "user-prompt"), ("content", Val.vstr "")]])],
  Val.vdict [("parts", Val.vlist [
    Val.vdict [("part_kind", Val.vstr "user-prompt"), ("content", Val.vstr "second")]])]])]

/-! ## Theorems -/

/-- `all(...)` over a list of plain strings never raises and agrees with the
pointwise substring test. -/
theorem allContainWiki_map (ss : List String) :
    allContainWiki (ss.map Val.vstr)
      = some (ss.all (fun s => containsSubStr s "wikipedia.org/wiki")) := by
  induction ss with
  | nil => rfl
  | cons s rest ih =>
    by_cases h : containsSubStr s "wikipedia.org/wiki" <;>
      simp [allContainWiki, List.all_cons, h, ih]

/-- Python string-literal comparison characterized. -/
theorem isStrEq_true_iff (v : Val) (s : String) : isStrEq v s = true ↔ v = Val.vstr s := by
  cases v <;> simp [isStrEq]

/-- The empty string literal is empty. -/
theorem str_isEmpty_nil : ("" : String).isEmpty = true := rfl

/-- `asString` succeeds exactly on strings. -/
theorem asString_eq_some (v : Val) (s : String) : asString v = some s ↔ v = Val.vstr s := by
  cases v <;> simp [asString]

/-- Forward evaluation lemma: with every dynamic side condition supplied,
`evaluate_entry` returns the three checks. -/
theorem evaluate_entry_some (i : Nat) (e : Val) (up ans : String) (ins refsV : Val)
    (ts : List Val) (n : Nat) (items : List Val) (fmtOk : Bool)
    (hx : extract_core_fields e = some (up, Val.vstr ans, ins, refsV))
    (ht : extract_tool_calls e = some ts)
    (hn : pyLen refsV = some n)
    (hi : pyIterVals refsV = some items)
    (hf : allContainWiki items = some fmtOk) :
    evaluate_entry i e =
      some [follow_instruction_check i (Val.vstr ans) ts n fmtOk,
        answer_relevant_check i up ans,
        has_references_check i (Val.vstr ans) ans n] := by
  rw [evaluate_entry, hx]
  simp only [Option.bind_eq_bind, Option.some_bind, ht, hn, hi, hf, asString, Option.pure_def]

/-- Inversion lemma: a successful `evaluate_entry` run determines the extracted
fields, tool calls, reference measurements and the three returned checks. -/
theorem evaluate_entry_inv (i : Nat) (e : Val) (cs : List CheckResult)
    (he : evaluate_entry i e = some cs) :
    ∃ up ans ins refsV ts n items fmtOk,
      extract_core_fields e = some (up, Val.vstr ans, ins, refsV) ∧
      extract_tool_calls e = some ts ∧
      pyLen refsV = some n ∧
      pyIterVals refsV = some items ∧
      allContainWiki items = some fmtOk ∧
      cs = [follow_instruction_check i (Val.vstr ans) ts n fmtOk,
        answer_relevant_check i up ans,
        has_references_check i (Val.vstr ans) ans n] := by
  cases hx : extract_core_fields e with
  | none => rw [evaluate_entry, hx] at he; exact absurd he (by simp)
  | some quad =>
  obtain ⟨up, answerV, ins, refsV⟩ := quad
  rw [evaluate_entry, hx] at he
  simp only [Option.bind_eq_bind, Option.some_bind] at he
  cases ht : extract_tool_calls e with
  | none => simp [ht] at he
  | some ts =>
  simp only [ht, Option.bind_eq_bind, Option.some_bind] at he
  cases hn : pyLen refsV with
  | none => simp [hn] at he
  | some n =>
  simp only [hn, Option.bind_eq_bind, Option.some_bind] at he
  cases hi : pyIterVals refsV with
  | none => simp [hi] at he
  | some items =>
  simp only [hi, Option.bind_eq_bind, Option.some_bind] at he
  cases hf : allContainWiki items with
  | none => simp [hf] at he
  | some fmtOk =>
  simp only [hf, Option.bind_eq_bind, Option.some_bind] at he
  cases ha : asString answerV with
  | none => simp [ha] at he
  | some ans =>
  simp only [ha, Option.bind_eq_bind, Option.some_bind, Option.pure_def, Option.some_inj] at he
  obtain rfl : answerV = Val.vstr ans := (asString_eq_some _ _).mp ha
  exact ⟨up, ans, ins, refsV, ts, n, items, fmtOk, rfl, rfl, hn, hi, hf, he.symm⟩

/-- Claim C2: for every log entry whose extracted answer is the empty string,
`evaluate_entry` returns exactly three `CheckResult`s and each has
`passed = none` (the tri-state "not applicable", distinct from `false`). -/
theorem claimC2_empty_answer_all_none (log_id : Nat) (entry : Val) (up : String)
    (ins refs : Val) (cs : List CheckResult)
    (hx : extract_core_fields entry = some (up, Val.vstr "", ins, refs))
    (he : evaluate_entry log_id entry = some cs) :
    cs.length = 3 ∧ ∀ c ∈ cs, c.passed = none := by
  obtain ⟨up', ans', ins', refsV', ts, n, items, fmtOk, hx', ht, hn, hi, hf, rfl⟩ :=
    evaluate_entry_inv log_id entry cs he
  obtain ⟨rfl, hansv, rfl, rfl⟩ : up' = up ∧ Val.vstr ans' = Val.vstr "" ∧ ins' = ins ∧ refsV' = refs := by
    have := hx'.symm.trans hx
    simpa using this
  obtain rfl : ans' = "" := by simpa using hansv
  refine ⟨rfl, ?_⟩
  intro c hc
  simp only [List.mem_cons, List.not_mem_nil, or_false] at hc
  rcases hc with h | h | h <;> subst h <;>
    simp [truthy, answer_relevant_check, follow_instruction_check, has_references_check,
      String.isEmpty]

/-- Claim C2 witness: the empty-output entry of spec scenario B. -/
theorem claimC2_witness :
    extract_core_fields entryEmptyOut = some ("", Val.vstr "", Val.vstr "", Val.vlist []) ∧
    ((evaluate_entry 1 entryEmptyOut).getD []).length = 3 ∧
    ∀ c ∈ (evaluate_entry 1 entryEmptyOut).getD [], c.passed = none :=
  ⟨rfl, claimC2_empty_answer_all_none 1 entryEmptyOut "" (Val.vstr "") (Val.vlist []) _ rfl rfl⟩

/-- Claim C3: the `answer_relevant` check is the Jaccard similarity of the
case-folded `[A-Za-z0-9_]+` token sets of prompt and answer, with
`passed = (jaccard ≥ 0.08)` and `score = jaccard` when both texts are
non-empty, and `passed = score = none` otherwise. -/
theorem claimC3_answer_relevant_formula (log_id : Nat) (entry : Val) (up ans : String)
    (ins refsV : Val) (cs : List CheckResult)
    (hx : extract_core_fields entry = some (up, Val.vstr ans, ins, refsV))
    (he : evaluate_entry log_id entry = some cs) :
    ∃ c, cs.get? 1 = some c ∧ c.check_name = "answer_relevant" ∧
      c.passed = (if up ≠ "" ∧ ans ≠ "" then
        some (decide (jaccardSpec up ans ≥ (8 : ℚ)/100)) else none) ∧
      c.score = (if up ≠ "" ∧ ans ≠ "" then some (jaccardSpec up ans) else none) := by
  obtain ⟨up', ans', ins', refsV', ts, n, items, fmtOk, hx', ht, hn, hi, hf, rfl⟩ :=
    evaluate_entry_inv log_id entry cs he
  have hq := hx.symm.trans hx'
  simp only [Option.some_inj, Prod.mk.injEq, Val.vstr.injEq] at hq
  obtain ⟨rfl, rfl, rfl, rfl⟩ := hq
  refine ⟨answer_relevant_check log_id up ans, rfl, rfl, ?_, ?_⟩ <;>
  · simp only [answer_relevant_check, jaccardSpec, specTokens]
    by_cases hup : up = "" <;> by_cases hans : ans = "" <;>
      simp [hup, hans, String.isEmpty_iff]

/-- Claim C3 witness: scenario A's entry exercises the non-empty branch. -/
theorem claimC3_witness :
    extract_core_fields entryScenA = some ("capybara habitat",
      Val.vstr "Capybaras live near water.", Val.vstr "",
      Val.vlist [Val.vstr "https://en.wikipedia.org/wiki/Capybara"]) ∧
    ∃ c, ((evaluate_entry 3 entryScenA).getD []).get? 1 = some c ∧
      c.check_name = "answer_relevant" ∧
      c.passed = (if "capybara habitat" ≠ "" ∧ "Capybaras live near water." ≠ "" then
        some (decide (jaccardSpec "capybara habitat" "Capybaras live near water." ≥ (8 : ℚ)/100))
        else none) ∧
      c.score = (if "capybara habitat" ≠ "" ∧ "Capybaras live near water." ≠ "" then
        some (jaccardSpec "capybara habitat" "Capybaras live near water.") else none) :=
  ⟨rfl, claimC3_answer_relevant_formula 3 entryScenA "capybara habitat"
    "Capybaras live near water." (Val.vstr "")
    (Val.vlist [Val.vstr "https://en.wikipedia.org/wiki/Capybara"]) _ rfl rfl⟩

/-- `searchFirst` characterized: the first recorded tool call is the search tool. -/
theorem searchFirst_true_iff (ts : List Val) :
    searchFirst ts = true ↔ ts.head? = some (Val.vstr "search_wikipedia") := by
  cases ts with
  | nil => simp [searchFirst]
  | cons t rest => simp [searchFirst, isStrEq_true_iff]

/-- Claim C1: with a non-empty extracted answer, `follow_instruction.passed`
is a boolean, and it is `true` exactly when the first tool call is
`search_wikipedia`, the `get_page_raw` count is in `[2,5]`, the reference
count is in `[1,5]`, and every reference contains `"wikipedia.org/wiki"`;
negating any one conjunct makes it `false`. -/
theorem claimC1_follow_instruction (log_id : Nat) (entry : Val) (up ans : String)
    (ins : Val) (ss : List String) (ts : List Val) (cs : List CheckResult)
    (hx : extract_core_fields entry = some (up, Val.vstr ans, ins, Val.vlist (ss.map Val.vstr)))
    (ht : extract_tool_calls entry = some ts)
    (he : evaluate_entry log_id entry = some cs)
    (hans : ans ≠ "") :
    ∃ c, cs.get? 0 = some c ∧ c.check_name = "follow_instruction" ∧
      (∃ b, c.passed = some b) ∧
      (c.passed = some true ↔
        (ts.head? = some (Val.vstr "search_wikipedia") ∧
         2 ≤ numGetPage ts ∧ numGetPage ts ≤ 5 ∧
         1 ≤ ss.length ∧ ss.length ≤ 5 ∧
         ∀ r ∈ ss, containsSubStr r "wikipedia.org/wiki" = true)) := by
  obtain ⟨up', ans', ins', refsV', ts', n, items, fmtOk, hx', ht', hn, hi, hf, rfl⟩ :=
    evaluate_entry_inv log_id entry cs he
  have hq := hx.symm.trans hx'
  simp only [Option.some_inj, Prod.mk.injEq, Val.vstr.injEq] at hq
  obtain ⟨rfl, rfl, rfl, rfl⟩ := hq
  obtain rfl : ts = ts' := by
    have := ht.symm.trans ht'
    simpa using this
  obtain rfl : n = ss.length := by
    simp only [pyLen, List.length_map, Option.some_inj] at hn
    exact hn.symm
  obtain rfl : items = ss.map Val.vstr := by
    simp only [pyIterVals, Option.some_inj] at hi
    exact hi.symm
  obtain rfl : fmtOk = ss.all (fun s => containsSubStr s "wikipedia.org/wiki") := by
    rw [allContainWiki_map] at hf
    simpa using hf.symm
  refine ⟨follow_instruction_check log_id (Val.vstr ans) ts ss.length
    (ss.all (fun s => containsSubStr s "wikipedia.org/wiki")), rfl, rfl, ?_, ?_⟩
  · refine ⟨searchFirst ts && (decide (2 ≤ numGetPage ts) && decide (numGetPage ts ≤ 5))
      && (decide (1 ≤ ss.length) && decide (ss.length ≤ 5))
      && ss.all (fun s => containsSubStr s "wikipedia.org/wiki"), ?_⟩
    simp [follow_instruction_check, truthy, String.isEmpty_iff, hans]
  · simp only [follow_instruction_check, truthy, String.isEmpty_iff]
    simp [hans, searchFirst_true_iff, List.all_eq_true, and_assoc, Bool.eq_false_iff,
      String.isEmpty_iff]

/-- Claim C1 witness: scenario A's entry satisfies all four conditions. -/
theorem claimC1_witness :
    ("Capybaras live near water." ≠ "") ∧
    ∃ c, ((evaluate_entry 4 entryScenA).getD []).get? 0 = some c ∧
      c.check_name = "follow_instruction" ∧
      (∃ b, c.passed = some b) ∧
      (c.passed = some true ↔
        (([Val.vstr "search_wikipedia", Val.vstr "get_page_raw", Val.vstr "get_page_raw"] :
            List Val).head? = some (Val.vstr "search_wikipedia") ∧
         2 ≤ numGetPage [Val.vstr "search_wikipedia", Val.vstr "get_page_raw", Val.vstr "get_page_raw"] ∧
         numGetPage [Val.vstr "search_wikipedia", Val.vstr "get_page_raw", Val.vstr "get_page_raw"] ≤ 5 ∧
         1 ≤ (["https://en.wikipedia.org/wiki/Capybara"] : List String).length ∧
         (["https://en.wikipedia.org/wiki/Capybara"] : List String).length ≤ 5 ∧
         ∀ r ∈ (["https://en.wikipedia.org/wiki/Capybara"] : List String),
           containsSubStr r "wikipedia.org/wiki" = true)) :=
  ⟨by decide, claimC1_follow_instruction 4 entryScenA "capybara habitat"
    "Capybaras live near water." (Val.vstr "") ["https://en.wikipedia.org/wiki/Capybara"]
    [Val.vstr "search_wikipedia", Val.vstr "get_page_raw", Val.vstr "get_page_raw"]
    _ rfl rfl rfl (by decide)⟩

/-- Claim C5 counterexample: in `entryTwoPrompts` the first user-prompt part
(scanning messages and parts in order) has content `""`, yet the extracted
`user_prompt` is `"second"`, the content of a later message's prompt part. -/
theorem claimC5_counterexample :
    extract_core_fields entryTwoPrompts
      = some ("second", Val.vstr "", Val.vstr "", Val.vlist []) ∧
    ("second" : String) ≠ "" :=
  ⟨rfl, by decide⟩

/-- Claim C5 amended: within each message only that message's first
user-prompt part is considered; its (string-form) content is returned when
non-empty, while an empty or absent candidate lets the scan continue with the
following messages, so the result is the first non-empty candidate and `""`
when there is none. -/
theorem claimC5_amended_scan (m : Val) (rest : List Val) (partsRaw : Val)
    (parts : List Val) (r : Option String)
    (hpr : pyGetD m "parts" (Val.vlist []) = some partsRaw)
    (hit : pyIterVals (orVal partsRaw (Val.vlist [])) = some parts)
    (hf : firstUserPromptInParts parts = some r) :
    scanUserPrompt [] = some "" ∧
    (∀ s, r = some s → s ≠ "" → scanUserPrompt (m :: rest) = some s) ∧
    ((r = some "" ∨ r = none) → scanUserPrompt (m :: rest) = scanUserPrompt rest) := by
  refine ⟨rfl, ?_, ?_⟩
  · intro s hr hs
    subst hr
    rw [scanUserPrompt, hpr]
    simp only [Option.bind_eq_bind, Option.some_bind, hit, hf, hs]
    simp [hs]
  · rintro (rfl | rfl)
    · rw [scanUserPrompt, hpr]
      simp only [Option.bind_eq_bind, Option.some_bind, hit, hf]
      simp
    · rw [scanUserPrompt, hpr]
      simp only [Option.bind_eq_bind, Option.some_bind, hit, hf]

/-- Claim C5 amended witness: the two-message entry instantiates both the
skip-empty and the take-non-empty step. -/
theorem claimC5_amended_witness :
    pyGetD (Val.vdict [("parts", Val.vlist [Val.vdict [("part_kind", Val.vstr "user-prompt"),
        ("content", Val.vstr "")]])]) "parts" (Val.vlist [])
      = some (Val.vlist [Val.vdict [("part_kind", Val.vstr "user-prompt"),
        ("content", Val.vstr "")]]) ∧
    scanUserPrompt [] = some "" ∧
    scanUserPrompt [Val.vdict [("parts", Val.vlist [Val.vdict [("part_kind", Val.vstr "user-prompt"),
        ("content", Val.vstr "")]])]]
      = scanUserPrompt [] :=
  ⟨rfl, rfl,
    ((claimC5_amended_scan
      (Val.vdict [("parts", Val.vlist [Val.vdict [("part_kind", Val.vstr "user-prompt"),
        ("content", Val.vstr "")]])])
      [] _ _ (some "") rfl rfl rfl).2.2 (Or.inl rfl))⟩

/-- Claim C9 counterexample: `"!!!"` and `""` have the same (empty) token set,
yet the `answer_relevant` score is `some 0` for the first prompt and `none`
for the second, so equal token sets alone do not determine the score. -/
theorem claimC9_counterexample :
    specTokens "!!!" = specTokens "" ∧
    (answer_relevant_check 1 "!!!" "x").score ≠ (answer_relevant_check 1 "" "x").score :=
  ⟨rfl, by decide⟩

/-- Claim C9 amended: the `answer_relevant` score is invariant under replacing
prompt and answer by texts with the same token sets, provided text emptiness
is also preserved (as it is under any permutation of a text with at least one
token), and the score is symmetric in prompt and answer. -/
theorem claimC9_amended_score (i : Nat) (p a q b : String)
    (hp : specTokens p = specTokens q) (ha : specTokens a = specTokens b)
    (hpe : p = "" ↔ q = "") (hae : a = "" ↔ b = "") :
    (answer_relevant_check i p a).score = (answer_relevant_check i q b).score ∧
    ∀ s t, (answer_relevant_check i s t).score = (answer_relevant_check i t s).score := by
  constructor
  · have hp' : (pyTokenize p).toFinset = (pyTokenize q).toFinset := hp
    have ha' : (pyTokenize a).toFinset = (pyTokenize b).toFinset := ha
    by_cases hpp : p = ""
    · have hqq : q = "" := hpe.mp hpp
      simp [answer_relevant_check, hpp, hqq, str_isEmpty_nil]
    · have hqq : q ≠ "" := fun h => hpp (hpe.mpr h)
      by_cases haa : a = ""
      · have hbb : b = "" := hae.mp haa
        simp [answer_relevant_check, haa, hbb, str_isEmpty_nil]
      · have hbb : b ≠ "" := fun h => haa (hae.mpr h)
        simp [answer_relevant_check, String.isEmpty_iff, Bool.eq_false_iff,
          hpp, hqq, haa, hbb, hp', ha']
  · intro s t
    simp only [answer_relevant_check]
    rw [Finset.inter_comm, Finset.union_comm, Bool.and_comm]

/-- Claim C9 amended witness: reordered tokens and changed punctuation leave
the score unchanged. -/
theorem claimC9_amended_witness :
    specTokens "A b" = specTokens "b a" ∧
    specTokens "x" = specTokens "x!" ∧
    (("A b" : String) = "" ↔ ("b a" : String) = "") ∧
    (("x" : String) = "" ↔ ("x!" : String) = "") ∧
    (answer_relevant_check 2 "A b" "x").score = (answer_relevant_check 2 "b a" "x!").score ∧
    ∀ s t, (answer_relevant_check 2 s t).score = (answer_relevant_check 2 t s).score := by
  have h := claimC9_amended_score 2 "A b" "x" "b a" "x!" (by decide) (by decide)
    (by decide) (by decide)
  exact ⟨by decide, by decide, by decide, by decide, h.1, h.2⟩

/-- Parts that are dicts without a `"content"` key yield either no
user-prompt candidate or the empty candidate. -/
theorem firstUserPromptInParts_noContent (ps : List Val)
    (h : ∀ p ∈ ps, ∃ pfs, p = Val.vdict pfs ∧ lookupV pfs "content" = none) :
    firstUserPromptInParts ps = some none ∨ firstUserPromptInParts ps = some (some "") := by
  induction ps with
  | nil => left; rfl
  | cons p rest ih =>
    obtain ⟨pfs, rfl, hc⟩ := h p (List.mem_cons_self p rest)
    rw [firstUserPromptInParts]
    simp only [pyGetD, Option.bind_eq_bind, Option.some_bind]
    by_cases hk : isStrEq (lookupD pfs "part_kind" Val.vnull) "user-prompt"
    · right
      simp only [hk, if_true, pyGetD, Option.bind_eq_bind, Option.some_bind]
      simp [lookupD, hc]
    · have := ih (fun q hq => h q (List.mem_cons_of_mem _ hq))
      simpa only [hk, if_false, Bool.false_eq_true] using this

/-- The user-prompt scan over messages of the claim-C8 shape terminates
without an exception and yields the default `""`. -/
theorem scanUserPrompt_noContent (ms : List Val) (h : NoContentMsgs ms) :
    scanUserPrompt ms = some "" := by
  induction ms with
  | nil => rfl
  | cons m rest ih =>
    obtain ⟨mfs, rfl, hparts⟩ := h m (List.mem_cons_self m rest)
    have hrest := ih (fun q hq => h q (List.mem_cons_of_mem _ hq))
    rw [scanUserPrompt]
    simp only [pyGetD, Option.bind_eq_bind, Option.some_bind]
    cases hpv : lookupV mfs "parts" with
    | none =>
      simp [lookupD, hpv, orVal, truthy, pyIterVals, firstUserPromptInParts, hrest]
    | some pv =>
      obtain ⟨ps, rfl, hps⟩ := hparts pv hpv
      cases ps with
      | nil =>
        simp [lookupD, hpv, orVal, truthy, pyIterVals, firstUserPromptInParts, hrest]
      | cons p ptl =>
        have hor : orVal (lookupD mfs "parts" (Val.vlist [])) (Val.vlist [])
            = Val.vlist (p :: ptl) := by
          simp [lookupD, hpv, orVal, truthy]
        rw [hor]
        simp only [pyIterVals, Option.some_bind]
        rcases firstUserPromptInParts_noContent (p :: ptl) hps with hfp | hfp <;>
          simp [hfp, hrest]

/-- Claim C8: absent optional keys are never an error in
`extract_core_fields`: the all-absent entry extracts to the documented
defaults, each absent key independently forces its default in any successful
extraction, and messages whose parts lack `"content"` extract without an
exception to an empty user prompt. -/
theorem claimC8_missing_key_defaults (fs : List (String × Val)) :
    (lookupV fs "system_prompt" = none → lookupV fs "output" = none →
      lookupV fs "messages" = none →
      extract_core_fields (Val.vdict fs) = some ("", Val.vstr "", Val.vstr "", Val.vlist [])) ∧
    (∀ up ans ins refs, extract_core_fields (Val.vdict fs) = some (up, ans, ins, refs) →
      (lookupV fs "system_prompt" = none → ins = Val.vstr "") ∧
      (lookupV fs "output" = none → ans = Val.vstr "" ∧ refs = Val.vlist []) ∧
      (lookupV fs "messages" = none → up = "") ∧
      (∀ ofs, lookupV fs "output" = some (Val.vdict ofs) →
        (lookupV ofs "answer" = none → ans = Val.vstr "") ∧
        (lookupV ofs "references" = none → refs = Val.vlist []))) ∧
    (∀ ms, lookupV fs "messages" = some (Val.vlist ms) → NoContentMsgs ms →
      ∃ ans ins refs, extract_core_fields (Val.vdict fs) = some ("", ans, ins, refs)) := by
  refine ⟨?_, ?_, ?_⟩
  · intro hsp hout hmsg
    rw [extract_core_fields]
    simp [pyGetD, lookupD, lookupV, hsp, hout, hmsg, orVal, truthy, pyIterVals,
      scanUserPrompt]
  · intro up ans ins refs hx
    rw [extract_core_fields] at hx
    simp only [pyGetD, Option.bind_eq_bind, Option.some_bind] at hx
    cases hmi : pyIterVals (lookupD fs "messages" (Val.vlist [])) with
    | none => rw [hmi] at hx; exact absurd hx (by simp)
    | some msgs =>
    rw [hmi] at hx
    simp only [Option.some_bind] at hx
    cases hsc : scanUserPrompt msgs with
    | none => rw [hsc] at hx; exact absurd hx (by simp)
    | some up0 =>
    rw [hsc] at hx
    simp only [Option.some_bind, Option.pure_def, Option.some_inj, Prod.mk.injEq] at hx
    obtain ⟨hup, hins, hans, hrefs⟩ :
        up0 = up ∧
        orVal (lookupD fs "system_prompt" Val.vnull) (Val.vstr "") = ins ∧
        (match orVal (lookupD fs "output" Val.vnull) (Val.vdict []) with
          | Val.vdict ofs =>
            (orVal (lookupD ofs "answer" Val.vnull) (Val.vstr ""),
             orVal (lookupD ofs "references" Val.vnull) (Val.vlist []))
          | v => (Val.vstr (pyStr v), Val.vlist [])).1 = ans ∧
        (match orVal (lookupD fs "output" Val.vnull) (Val.vdict []) with
          | Val.vdict ofs =>
            (orVal (lookupD ofs "answer" Val.vnull) (Val.vstr ""),
             orVal (lookupD ofs "references" Val.vnull) (Val.vlist []))
          | v => (Val.vstr (pyStr v), Val.vlist [])).2 = refs := by
      exact ⟨hx.1, hx.2.2.1, hx.2.1, hx.2.2.2⟩
    refine ⟨?_, ?_, ?_, ?_⟩
    · intro hsp
      rw [← hins]
      simp [lookupD, lookupV, hsp, orVal, truthy]
    · intro hout
      refine ⟨?_, ?_⟩
      · rw [← hans]
        simp [lookupD, lookupV, hout, orVal, truthy]
      · rw [← hrefs]
        simp [lookupD, lookupV, hout, orVal, truthy]
    · intro hmsg
      have hmsgs : msgs = [] := by
        simp only [lookupD, hmsg, Option.getD_none, pyIterVals, Option.some_inj] at hmi
        exact hmi.symm
      subst hmsgs
      simp only [scanUserPrompt, Option.some_inj] at hsc
      rw [← hup, ← hsc]
    · intro ofs hout
      refine ⟨?_, ?_⟩
      · intro hanswer
        rw [← hans]
        rcases ofs with _ | ⟨kv, otl⟩
        · simp [lookupD, lookupV, hout, orVal, truthy]
        · simp only [lookupV] at hanswer
          simp [lookupD, lookupV, hout, orVal, truthy, hanswer]
      · intro hre
        rw [← hrefs]
        rcases ofs with _ | ⟨kv, otl⟩
        · simp [lookupD, lookupV, hout, orVal, truthy]
        · simp only [lookupV] at hre
          simp [lookupD, lookupV, hout, orVal, truthy, hre]
  · intro ms hmsg hnc
    rw [extract_core_fields]
    simp only [pyGetD, Option.bind_eq_bind, Option.some_bind]
    have hmi : lookupD fs "messages" (Val.vlist []) = Val.vlist ms := by
      simp [lookupD, hmsg]
    rw [hmi]
    simp only [pyIterVals, Option.some_bind]
    rw [scanUserPrompt_noContent ms hnc]
    simp only [Option.some_bind, Option.pure_def]
    exact ⟨_, _, _, rfl⟩

/-- Claim C8 witness: the empty dict has every optional key absent and
extracts to the documented defaults. -/
theorem claimC8_witness :
    extract_core_fields (Val.vdict []) = some ("", Val.vstr "", Val.vstr "", Val.vlist []) :=
  (claimC8_missing_key_defaults []).1 rfl rfl rfl

/-- Every check produced by `evaluate_entry` carries the supplied log id. -/
theorem evaluate_entry_log_ids (i : Nat) (e : Val) (cs : List CheckResult)
    (he : evaluate_entry i e = some cs) : ∀ c ∈ cs, c.log_id = i := by
  obtain ⟨up, ans, ins, refsV, ts, n, items, fmtOk, _, _, _, _, _, rfl⟩ :=
    evaluate_entry_inv i e cs he
  intro c hc
  simp only [List.mem_cons, List.not_mem_nil, or_false] at hc
  rcases hc with rfl | rfl | rfl <;> rfl

/-- Claim C10: re-running the upsert for a filename that already has a `logs`
row leaves the `logs` table (hence every column of that row, including the
denormalized extracted fields and `created_at`) and the id sequence
untouched, even for changed file content; only that row's `checks` are
deleted and re-inserted from the new evaluation. -/
theorem claimC10_rerun_preserves_log_row (db : DB) (path : String) (e2 : Val)
    (now : Nat) (row : LogRow) (quad : String × Val × Val × Val) (cs2 : List CheckResult)
    (hfind : db.logs.find? (fun r => r.filename == pathName path) = some row)
    (hx : extract_core_fields e2 = some quad)
    (he : evaluate_entry row.id e2 = some cs2) :
    upsert_log_and_checks db path e2 now
      = ({ logs := db.logs,
           checks := db.checks.filter (fun c => c.log_id != row.id) ++ cs2,
           nextLogId := db.nextLogId }, true) := by
  obtain ⟨up, ans, ins, refs⟩ := quad
  rw [upsert_log_and_checks, hx]
  simp only [hfind, he]

/-- Claim C4: with a fresh filename, a successful upsert followed by a second
upsert of the same parsed content leaves the database exactly as after the
first run (one `logs` row for the filename, no duplicated checks), and a
second upsert of changed content replaces that row's checks while preserving
the `logs` table (hence the row's `id` and `created_at`). -/
theorem claimC4_upsert_idempotent (db : DB) (path : String) (e : Val) (t1 t2 : Nat)
    (db1 : DB)
    (hwf : WFdb db)
    (hfresh : db.logs.find? (fun r => r.filename == pathName path) = none)
    (h1 : upsert_log_and_checks db path e t1 = (db1, true)) :
    (upsert_log_and_checks db1 path e t2 = (db1, true) ∧
     (db1.logs.filter (fun r => r.filename == pathName path)).length = 1) ∧
    (∀ e2 quad2 cs2, extract_core_fields e2 = some quad2 →
      evaluate_entry db.nextLogId e2 = some cs2 →
      upsert_log_and_checks db1 path e2 t2
        = ({ logs := db1.logs,
             checks := db1.checks.filter (fun c => c.log_id != db.nextLogId) ++ cs2,
             nextLogId := db1.nextLogId }, true)) := by
  -- deconstruct the first (successful) upsert
  cases hx : extract_core_fields e with
  | none => rw [upsert_log_and_checks, hx] at h1; exact absurd (Prod.mk.injEq .. ▸ h1).2 (by simp)
  | some quad =>
  obtain ⟨up, ans, ins, refs⟩ := quad
  rw [upsert_log_and_checks, hx] at h1
  simp only [hfresh] at h1
  cases hn : pyLen refs with
  | none => rw [hn] at h1; exact absurd (Prod.mk.injEq .. ▸ h1).2 (by simp)
  | some n =>
  rw [hn] at h1
  cases hev : evaluate_entry db.nextLogId e with
  | none => rw [hev] at h1; exact absurd (Prod.mk.injEq .. ▸ h1).2 (by simp)
  | some cs1 =>
  rw [hev] at h1
  obtain ⟨hdb1, -⟩ := Prod.mk.injEq .. ▸ h1
  subst hdb1
  have hids1 := evaluate_entry_log_ids _ _ _ hev
  -- old checks survive the delete, the run's own checks are exactly deleted
  have hfilter : ∀ cs2' : List CheckResult, (∀ c ∈ cs2', c.log_id = db.nextLogId) →
      (db.checks ++ cs2').filter (fun c => c.log_id != db.nextLogId) = db.checks := by
    intro cs2' hids
    rw [List.filter_append]
    have hkeep : db.checks.filter (fun c => c.log_id != db.nextLogId) = db.checks := by
      refine List.filter_eq_self.mpr ?_
      intro c hc
      obtain ⟨r, hr, hcr⟩ := hwf.2 c hc
      have := hwf.1 r hr
      simp only [bne_iff_ne, ne_eq, hcr]
      omega
    have hdrop : cs2'.filter (fun c => c.log_id != db.nextLogId) = [] := by
      refine List.filter_eq_nil_iff.mpr ?_
      intro c hc
      simp [hids c hc]
    rw [hkeep, hdrop, List.append_nil]
  -- the re-run finds exactly the row inserted by the first run
  have hfind1 : List.find? (fun r => r.filename == pathName path)
      (db.logs ++ [{ id := db.nextLogId, filename := pathName path, created_at := t1
                     user_prompt := up, answer := ans, instructions := ins
                     n_references := n, raw_json := jsonDumps e }])
      = some { id := db.nextLogId, filename := pathName path, created_at := t1
               user_prompt := up, answer := ans, instructions := ins
               n_references := n, raw_json := jsonDumps e } := by
    rw [List.find?_append, hfresh]
    simp [List.find?]
  refine ⟨⟨?_, ?_⟩, ?_⟩
  · -- idempotent re-run with the same content
    rw [upsert_log_and_checks, hx]
    simp only [hfind1, hev]
    rw [hfilter cs1 hids1]
  · -- exactly one row for the filename
    have hnil : db.logs.filter (fun r => r.filename == pathName path) = [] := by
      refine List.filter_eq_nil_iff.mpr ?_
      intro r hr
      exact List.find?_eq_none.mp hfresh r hr
    simp only [List.filter_append, hnil]
    simp [List.filter]
  · -- re-run with changed content
    intro e2 quad2 cs2 hx2 hev2
    obtain ⟨up2, ans2, ins2, refs2⟩ := quad2
    rw [upsert_log_and_checks, hx2]
    simp only [hfind1, hev2]

/-- Claim C10 witness: re-ingesting a different entry for an already-ingested
filename leaves the stored log row intact and swaps its checks. -/
theorem claimC10_witness :
    ((upsert_log_and_checks emptyDB "logs/a.json" entryScenA 7).1).logs.find?
        (fun r => r.filename == pathName "logs/a.json")
      = some rowScenA ∧
    extract_core_fields entryEmptyOut = some ("", Val.vstr "", Val.vstr "", Val.vlist []) ∧
    upsert_log_and_checks ((upsert_log_and_checks emptyDB "logs/a.json" entryScenA 7).1)
        "logs/a.json" entryEmptyOut 9
      = ({ logs := ((upsert_log_and_checks emptyDB "logs/a.json" entryScenA 7).1).logs,
           checks := ((upsert_log_and_checks emptyDB "logs/a.json" entryScenA 7).1).checks.filter
               (fun c => c.log_id != rowScenA.id)
             ++ (evaluate_entry 0 entryEmptyOut).getD [],
           nextLogId := ((upsert_log_and_checks emptyDB "logs/a.json" entryScenA 7).1).nextLogId },
         true) :=
  ⟨rfl, rfl,
    claimC10_rerun_preserves_log_row
      ((upsert_log_and_checks emptyDB "logs/a.json" entryScenA 7).1)
      "logs/a.json" entryEmptyOut 9
      rowScenA
      ("", Val.vstr "", Val.vstr "", Val.vlist [])
      ((evaluate_entry 0 entryEmptyOut).getD []) rfl rfl rfl⟩

/-- Claim C4 witness: ingesting scenario A twice into an empty database, and
then re-ingesting changed content. -/
theorem claimC4_witness :
    WFdb emptyDB ∧
    emptyDB.logs.find? (fun r => r.filename == pathName "logs/a.json") = none ∧
    upsert_log_and_checks emptyDB "logs/a.json" entryScenA 7
      = ((upsert_log_and_checks emptyDB "logs/a.json" entryScenA 7).1, true) ∧
    (upsert_log_and_checks ((upsert_log_and_checks emptyDB "logs/a.json" entryScenA 7).1)
        "logs/a.json" entryScenA 9
      = ((upsert_log_and_checks emptyDB "logs/a.json" entryScenA 7).1, true) ∧
     (((upsert_log_and_checks emptyDB "logs/a.json" entryScenA 7).1).logs.filter
        (fun r => r.filename == pathName "logs/a.json")).length = 1) ∧
    upsert_log_and_checks ((upsert_log_and_checks emptyDB "logs/a.json" entryScenA 7).1)
        "logs/a.json" entryEmptyOut 9
      = ({ logs := ((upsert_log_and_checks emptyDB "logs/a.json" entryScenA 7).1).logs,
           checks := ((upsert_log_and_checks emptyDB "logs/a.json" entryScenA 7).1).checks.filter
               (fun c => c.log_id != emptyDB.nextLogId)
             ++ (evaluate_entry emptyDB.nextLogId entryEmptyOut).getD [],
           nextLogId := ((upsert_log_and_checks emptyDB "logs/a.json" entryScenA 7).1).nextLogId },
         true) := by
  have hwf : WFdb emptyDB := ⟨by intro r hr; simp [emptyDB] at hr, by intro c hc; simp [emptyDB] at hc⟩
  have h := claimC4_upsert_idempotent emptyDB "logs/a.json" entryScenA 7 9
    ((upsert_log_and_checks emptyDB "logs/a.json" entryScenA 7).1) hwf rfl rfl
  exact ⟨hwf, rfl, rfl, h.1,
    h.2 entryEmptyOut ("", Val.vstr "", Val.vstr "", Val.vlist [])
      ((evaluate_entry emptyDB.nextLogId entryEmptyOut).getD []) rfl rfl⟩

/-- A list is a prefix of itself followed by anything. -/
theorem isPrefixL_self_append (xs ys : List Char) : isPrefixL xs (xs ++ ys) = true := by
  induction xs with
  | nil => rfl
  | cons a as ih => simp [isPrefixL, ih]

/-- Substring containment is preserved by prepending. -/
theorem containsSubL_append_left (needle pre rest : List Char)
    (h : containsSubL needle rest = true) : containsSubL needle (pre ++ rest) = true := by
  induction pre with
  | nil => exact h
  | cons c cs ih => simp [containsSubL, ih]

/-- A list contains itself (followed by anything) as a sublist. -/
theorem containsSubL_self_append (needle post : List Char) :
    containsSubL needle (needle ++ post) = true := by
  cases needle with
  | nil => cases post <;> simp [containsSubL, isPrefixL]
  | cons a as => simp [containsSubL, isPrefixL, isPrefixL_self_append]

/-- The per-file error line names the failing file's path. -/
theorem errorLine_contains_path (p m : String) : containsSubStr (errorLine p m) p = true := by
  unfold containsSubStr errorLine
  rw [String.data_append, String.data_append, String.data_append,
    List.append_assoc, List.append_assoc]
  exact containsSubL_append_left _ _ _ (containsSubL_self_append _ _)

/-- A success line is recognized as such. -/
theorem isProcessedLine_processedLine (p : String) :
    isProcessedLine (processedLine p) = true := by
  unfold isProcessedLine processedLine
  rw [String.data_append]
  exact isPrefixL_self_append _ _

/-- An error line is recognized as such. -/
theorem isErrorLine_errorLine (p m : String) : isErrorLine (errorLine p m) = true := by
  unfold isErrorLine errorLine
  rw [String.data_append, String.data_append, String.data_append,
    List.append_assoc, List.append_assoc]
  exact isPrefixL_self_append _ _

/-- An error line is not a success line (the prefixes differ at index 2). -/
theorem isProcessedLine_errorLine (p m : String) :
    isProcessedLine (errorLine p m) = false := by
  unfold isProcessedLine errorLine
  rw [String.data_append, String.data_append, String.data_append]
  simp [isPrefixL]

/-- A success line is not an error line. -/
theorem isErrorLine_processedLine (p : String) :
    isErrorLine (processedLine p) = false := by
  unfold isErrorLine processedLine
  rw [String.data_append]
  simp [isPrefixL]

/-- The per-file loop processes a concatenation left-to-right, threading the
database state. -/
theorem processFiles_append (now : Nat) (db : DB)
    (xs ys : List (String × Except String Val)) :
    processFiles now db (xs ++ ys)
      = ((processFiles now (processFiles now db xs).1 ys).1,
         (processFiles now db xs).2 ++ (processFiles now (processFiles now db xs).1 ys).2) := by
  induction xs generalizing db with
  | nil => simp [processFiles]
  | cons f rest ih =>
    obtain ⟨p, res⟩ := f
    cases res with
    | error msg => simp [processFiles, ih]
    | ok entry => simp [processFiles, ih]

/-- The per-file loop prints exactly one line per file. -/
theorem processFiles_length (now : Nat) (db : DB)
    (fs : List (String × Except String Val)) :
    (processFiles now db fs).2.length = fs.length := by
  induction fs generalizing db with
  | nil => rfl
  | cons f rest ih =>
    obtain ⟨p, res⟩ := f
    cases res with
    | error msg => simp [processFiles, ih]
    | ok entry => simp [processFiles, ih]

/-- Every line of the per-file loop is either a success line or an error
line, never both. -/
theorem processFiles_line_kinds (now : Nat) (db : DB)
    (fs : List (String × Except String Val)) :
    ∀ l ∈ (processFiles now db fs).2,
      (isProcessedLine l = true ∧ isErrorLine l = false) ∨
      (isErrorLine l = true ∧ isProcessedLine l = false) := by
  induction fs generalizing db with
  | nil => simp [processFiles]
  | cons f rest ih =>
    obtain ⟨p, res⟩ := f
    intro l hl
    cases res with
    | error msg =>
      simp only [processFiles] at hl
      rcases List.mem_cons.mp hl with rfl | hl'
      · exact Or.inr ⟨isErrorLine_errorLine p msg, isProcessedLine_errorLine p msg⟩
      · exact ih db l hl'
    | ok entry =>
      simp only [processFiles] at hl
      rcases List.mem_cons.mp hl with rfl | hl'
      · cases hok : (upsert_log_and_checks db p entry now).2 with
        | true =>
          exact Or.inl ⟨by simp [isProcessedLine_processedLine],
            by simp [isErrorLine_processedLine]⟩
        | false =>
          exact Or.inr ⟨by simp [isErrorLine_errorLine],
            by simp [isProcessedLine_errorLine]⟩
      · exact ih _ l hl'

/-- Mutually exclusive classifiers partition the line count. -/
theorem filter_partition_length (ls : List String)
    (h : ∀ l ∈ ls, (isProcessedLine l = true ∧ isErrorLine l = false) ∨
      (isErrorLine l = true ∧ isProcessedLine l = false)) :
    (ls.filter isProcessedLine).length + (ls.filter isErrorLine).length = ls.length := by
  induction ls with
  | nil => rfl
  | cons l rest ih =>
    have hrest := ih (fun x hx => h x (List.mem_cons_of_mem _ hx))
    rcases h l (List.mem_cons_self _ _) with ⟨h1, h2⟩ | ⟨h1, h2⟩ <;>
      simp [List.filter_cons, h1, h2] <;> omega

/-- Claim C7: a failing file is reported with its name and never blocks the
remaining (lexicographically sorted) files: the batch over
`fs1 ++ failing :: fs2` produces the lines of `fs1`, then the error line
naming the failing file, then the lines of `fs2` computed from the state the
failure left behind. -/
theorem claimC7_per_file_isolation (now : Nat) (db : DB)
    (fs1 fs2 : List (String × Except String Val)) (p msg : String) (e : Val)
    (paths : List String) :
    (processFiles now db (fs1 ++ (p, Except.error msg) :: fs2)
      = ((processFiles now (processFiles now db fs1).1 fs2).1,
         (processFiles now db fs1).2
           ++ errorLine p msg :: (processFiles now (processFiles now db fs1).1 fs2).2) ∧
     containsSubStr (errorLine p msg) p = true) ∧
    ((upsert_log_and_checks (processFiles now db fs1).1 p e now).2 = false →
      processFiles now db (fs1 ++ (p, Except.ok e) :: fs2)
        = ((processFiles now
              (upsert_log_and_checks (processFiles now db fs1).1 p e now).1 fs2).1,
           (processFiles now db fs1).2
             ++ errorLine p upsertErrMsg
               :: (processFiles now
                    (upsert_log_and_checks (processFiles now db fs1).1 p e now).1 fs2).2)) ∧
    List.Sorted (fun a b => a ≤ b) (iter_log_files paths) := by
  refine ⟨⟨?_, errorLine_contains_path p msg⟩, ?_, ?_⟩
  · rw [processFiles_append]
    simp [processFiles]
  · intro hfail
    rw [processFiles_append]
    simp [processFiles, hfail]
  · exact List.sorted_insertionSort _ _

/-- Claim C7 witness: a parse failure and a persistence failure in the middle
of a batch leave the following file processed. -/
theorem claimC7_witness :
    (processFiles 0 emptyDB
        ([("d/a.json", Except.ok entryEmptyOut)]
          ++ ("d/b.json", Except.error "boom") :: [("d/c.json", Except.ok entryEmptyOut)])
      = ((processFiles 0
            (processFiles 0 emptyDB [("d/a.json", Except.ok entryEmptyOut)]).1
            [("d/c.json", Except.ok entryEmptyOut)]).1,
         (processFiles 0 emptyDB [("d/a.json", Except.ok entryEmptyOut)]).2
           ++ errorLine "d/b.json" "boom"
             :: (processFiles 0
                  (processFiles 0 emptyDB [("d/a.json", Except.ok entryEmptyOut)]).1
                  [("d/c.json", Except.ok entryEmptyOut)]).2) ∧
     containsSubStr (errorLine "d/b.json" "boom") "d/b.json" = true) ∧
    ((upsert_log_and_checks
        (processFiles 0 emptyDB [("d/a.json", Except.ok entryEmptyOut)]).1
        "d/b.json" (Val.vnum 0) 0).2 = false ∧
     processFiles 0 emptyDB
        ([("d/a.json", Except.ok entryEmptyOut)]
          ++ ("d/b.json", Except.ok (Val.vnum 0)) :: [("d/c.json", Except.ok entryEmptyOut)])
      = ((processFiles 0
            (upsert_log_and_checks
              (processFiles 0 emptyDB [("d/a.json", Except.ok entryEmptyOut)]).1
              "d/b.json" (Val.vnum 0) 0).1
            [("d/c.json", Except.ok entryEmptyOut)]).1,
         (processFiles 0 emptyDB [("d/a.json", Except.ok entryEmptyOut)]).2
           ++ errorLine "d/b.json" upsertErrMsg
             :: (processFiles 0
                  (upsert_log_and_checks
                    (processFiles 0 emptyDB [("d/a.json", Except.ok entryEmptyOut)]).1
                    "d/b.json" (Val.vnum 0) 0).1
                  [("d/c.json", Except.ok entryEmptyOut)]).2)) ∧
    List.Sorted (fun a b => a ≤ b) (iter_log_files ["d/b.json", "d/a.json"]) := by
  have h := claimC7_per_file_isolation 0 emptyDB
    [("d/a.json", Except.ok entryEmptyOut)] [("d/c.json", Except.ok entryEmptyOut)]
    "d/b.json" "boom" (Val.vnum 0) ["d/b.json", "d/a.json"]
  exact ⟨h.1, ⟨rfl, h.2.1 rfl⟩, h.2.2⟩

/-- Claim C6 counterexample: two single-file runs, one fully successful and
one fully failing, end with the same fixed final line `"Done."`; the final
report does not state the processed/errored counts. -/
theorem claimC6_counterexample :
    ((mainRun true "d" ["d/a.json"] (fun _ => Except.ok entryEmptyOut) emptyDB 0).2.filter
        isProcessedLine).length = 1 ∧
    ((mainRun true "d" ["d/a.json"] (fun _ => Except.ok entryEmptyOut) emptyDB 0).2.filter
        isErrorLine).length = 0 ∧
    ((mainRun true "d" ["d/a.json"] (fun _ => Except.error "boom") emptyDB 0).2.filter
        isProcessedLine).length = 0 ∧
    ((mainRun true "d" ["d/a.json"] (fun _ => Except.error "boom") emptyDB 0).2.filter
        isErrorLine).length = 1 ∧
    (mainRun true "d" ["d/a.json"] (fun _ => Except.ok entryEmptyOut) emptyDB 0).2.getLast?
      = some "Done." ∧
    (mainRun true "d" ["d/a.json"] (fun _ => Except.error "boom") emptyDB 0).2.getLast?
      = some "Done." := by
  decide

/-- Claim C6 amended: after a non-trivial run the driver prints a header, one
status line per file (success or error, never both), and the fixed closing
line `"Done."`; the processed and errored counts are recoverable only by
counting the two kinds of per-file lines — no aggregate summary line is
printed. -/
theorem claimC6_amended_no_count_summary (dir : String) (paths : List String)
    (parse : String → Except String Val) (db : DB) (now : Nat)
    (hne : (iter_log_files paths).isEmpty = false) :
    ∃ body : List String,
      (mainRun true dir paths parse db now).2
        = ("Evaluating " ++ toString (iter_log_files paths).length ++ " logs from "
            ++ dir ++ "...") :: (body ++ ["Done."]) ∧
      body.length = (iter_log_files paths).length ∧
      (∀ l ∈ body, (isProcessedLine l = true ∧ isErrorLine l = false) ∨
        (isErrorLine l = true ∧ isProcessedLine l = false)) ∧
      (body.filter isProcessedLine).length + (body.filter isErrorLine).length
        = body.length ∧
      (mainRun true dir paths parse db now).2.getLast? = some "Done." := by
  have hout : (mainRun true dir paths parse db now).2
      = ("Evaluating " ++ toString (iter_log_files paths).length ++ " logs from "
          ++ dir ++ "...")
        :: ((processFiles now db ((iter_log_files paths).map (fun p => (p, parse p)))).2
          ++ ["Done."]) := by
    rw [mainRun]
    simp [hne]
  refine ⟨(processFiles now db ((iter_log_files paths).map (fun p => (p, parse p)))).2,
    hout, ?_, ?_, ?_, ?_⟩
  · rw [processFiles_length, List.length_map]
  · exact processFiles_line_kinds now db _
  · exact filter_partition_length _ (processFiles_line_kinds now db _)
  · rw [hout, ← List.cons_append, List.getLast?_concat]

/-- Claim C6 amended witness: a concrete one-file run has the
header/status/closing structure. -/
theorem claimC6_amended_witness :
    (iter_log_files ["d/a.json"]).isEmpty = false ∧
    ∃ body : List String,
      (mainRun true "d" ["d/a.json"] (fun _ => Except.ok entryEmptyOut) emptyDB 0).2
        = ("Evaluating " ++ toString (iter_log_files ["d/a.json"]).length ++ " logs from "
            ++ "d" ++ "...") :: (body ++ ["Done."]) ∧
      body.length = (iter_log_files ["d/a.json"]).length ∧
      (∀ l ∈ body, (isProcessedLine l = true ∧ isErrorLine l = false) ∨
        (isErrorLine l = true ∧ isProcessedLine l = false)) ∧
      (body.filter isProcessedLine).length + (body.filter isErrorLine).length
        = body.length ∧
      (mainRun true "d" ["d/a.json"] (fun _ => Except.ok entryEmptyOut) emptyDB 0).2.getLast?
        = some "Done." :=
  ⟨rfl, claimC6_amended_no_count_summary "d" ["d/a.json"]
    (fun _ => Except.ok entryEmptyOut) emptyDB 0 rfl⟩

end WikiEval
